import Mathlib

/-!
Verification of the pymemcache single-server client (`pymemcache/client.py`)
against its natural-language specification.

The embedding below models the Python 2 code shallowly:

* byte strings (`str`) become `List Char`;
* the socket is modelled as the finite list of chunks successive `recv`
  calls deliver; an exhausted list, or an explicitly empty chunk, models
  `recv` returning zero bytes (the peer closed the connection);
* exceptions become `Except Err`;
* the client instance state that matters to the claims (`self.sock`,
  `self.buf`) becomes an explicit `ClientState` record threaded through the
  command functions.
-/

namespace PMC

set_option autoImplicit false

/-- Byte-string literal helper: a Python `str` literal as a `List Char`. -/
def chars (s : String) : List Char := s.toList

/-- Errors of the client, mirroring the exception classes of the source
(`MemcacheUnknownCommandError`, `MemcacheClientError`, `MemcacheServerError`,
`MemcacheUnknownError`, `MemcacheUnexpectedCloseError`), plus `transport` for
`socket.error`/`socket.timeout` raised by the socket layer, `valueError` and
`keyError` for the Python builtin exceptions reachable in these code paths. -/
inductive Err where
  | unknownCommand (name : List Char)
  | clientError (msg : List Char)
  | serverError (msg : List Char)
  | unknownError (excerpt : List Char)
  | unexpectedClose
  | transport
  | valueError
  | keyError
deriving DecidableEq, Repr

/-- First split of a byte string at `"\r\n"`: `buf.find('\r\n')` combined
with `buf.partition("\r\n")` from `_readline` (client.py lines 726-733).
`some (before, after)` when the terminator occurs, split at its first
occurrence; `none` when the string holds no `"\r\n"`. -/
def splitCRLF : List Char → Option (List Char × List Char)
  | [] => none
  | c :: rest =>
    if c = '\r' ∧ rest.head? = some '\n' then some ([], rest.tail)
    else (splitCRLF rest).map fun p => (c :: p.1, p.2)

/-- Loop body of `_readline` (client.py lines 722-745).

State mirrors the Python local variables: `acc` is `''.join(chunks)` (the
chunks list is only ever joined, and the one surgery performed on it —
`chunks[-1] = chunks[-1][:-1]` — strips the final character of the
accumulated text, because chunks are only appended when non-empty);
`lastChar` is `last_char` (`none` models the initial `''`); `buf` is the
current buffer; `stream` is what remains of the socket.

Returns `(buf', line, stream')`: the trailing bytes after the terminator,
the line, and the unconsumed chunks. -/
def readlineLoop (acc : List Char) (lastChar : Option Char) (buf : List Char)
    (stream : List (List Char)) :
    Except Err (List Char × List Char × List (List Char)) :=
  match splitCRLF buf with
  | some (before, after) => .ok (after, acc ++ before, stream)
  | none =>
    if lastChar = some '\r' ∧ buf.head? = some '\n' then
      .ok (buf.tail, acc.dropLast, stream)
    else
      let acc' := acc ++ buf
      let lc' := if buf.isEmpty then lastChar else buf.getLast?
      match stream with
      | [] => .error .unexpectedClose
      | c :: rest =>
        if c.isEmpty then .error .unexpectedClose else readlineLoop acc' lc' c rest
termination_by stream.length

/-- `_readline(sock, buf)` (client.py lines 702-745): read a `"\r\n"`-delimited
line, starting from the carried-over buffer `buf`, pulling chunks from
`stream` as needed. Returns `(trailing, line, remaining stream)`. -/
def _readline (buf : List Char) (stream : List (List Char)) :
    Except Err (List Char × List Char × List (List Char)) :=
  readlineLoop [] none buf stream

/-- Loop of `_readvalue` (client.py lines 768-779). `rlen` starts at
`size + 2` and is decremented by the length of each fully-consumed chunk;
the source analysis shows `rlen ≥ 1` throughout, and `buf[:rlen - 2]` is
Python slicing: for `rlen = 1` it is `buf[:-1]`, i.e. `dropLast`. -/
def readvalueLoop (acc : List Char) (rlen : Nat) (buf : List Char)
    (stream : List (List Char)) :
    Except Err (List Char × List Char × List (List Char)) :=
  if rlen > buf.length then
    let acc' := acc ++ buf
    let rlen' := if buf.isEmpty then rlen else rlen - buf.length
    match stream with
    | [] => .error .unexpectedClose
    | c :: rest =>
      if c.isEmpty then .error .unexpectedClose else readvalueLoop acc' rlen' c rest
  else
    let tailPart := if rlen = 1 then buf.dropLast else buf.take (rlen - 2)
    .ok (buf.drop rlen, acc ++ tailPart, stream)
termination_by stream.length

/-- `_readvalue(sock, buf, size)` (client.py lines 748-779): read `size`
payload bytes plus the two terminator bytes, starting from the carried-over
buffer. Returns `(trailing, value, remaining stream)`. -/
def _readvalue (buf : List Char) (size : Nat) (stream : List (List Char)) :
    Except Err (List Char × List Char × List (List Char)) :=
  readvalueLoop [] (size + 2) buf stream

/-- Whitespace in the sense of Python's `str.split()` / `str.strip()`,
restricted to the characters that can occur in this protocol's lines. -/
def isPySpace (c : Char) : Bool :=
  c = ' ' ∨ c = '\t' ∨ c = '\r' ∨ c = '\n'

/-- Worker for `pySplit`; `cur` is the current token, reversed. -/
def pySplitGo (cur : List Char) : List Char → List (List Char)
  | [] => if cur.isEmpty then [] else [cur.reverse]
  | c :: rest =>
    if isPySpace c then
      if cur.isEmpty then pySplitGo [] rest else cur.reverse :: pySplitGo [] rest
    else pySplitGo (c :: cur) rest

/-- Python's `str.split()` with no argument: split on runs of whitespace,
discarding leading/trailing whitespace (used by `line.split()` in
`_fetch_cmd`, client.py lines 619-621). -/
def pySplit (l : List Char) : List (List Char) := pySplitGo [] l

/-- Python's `str.startswith` on byte strings. -/
def startswith : List Char → List Char → Bool
  | [], _ => true
  | _ :: _, [] => false
  | p :: ps, c :: cs => p = c && startswith ps cs

/-- The decimal digit characters, as produced by Python's `str()` of an
integer (callers only apply this to `d < 10`). -/
def digitChar : Nat → Char
  | 0 => '0'
  | 1 => '1'
  | 2 => '2'
  | 3 => '3'
  | 4 => '4'
  | 5 => '5'
  | 6 => '6'
  | 7 => '7'
  | 8 => '8'
  | _ => '9'

/-- Python's `str(n)` for a nonnegative integer: decimal digits. -/
def natToChars (n : Nat) : List Char :=
  if _h : n < 10 then [digitChar n]
  else natToChars (n / 10) ++ [digitChar (n % 10)]
termination_by n
decreasing_by exact Nat.div_lt_self (by omega) (by omega)

/-- Numeric value of an ASCII digit character. -/
def digitVal (c : Char) : Option Nat :=
  if 48 ≤ c.toNat ∧ c.toNat ≤ 57 then some (c.toNat - 48) else none

/-- Accumulating decimal parser over digit characters. -/
def parseNatGo (acc : Nat) : List Char → Option Nat
  | [] => some acc
  | c :: cs =>
    match digitVal c with
    | none => none
    | some d => parseNatGo (acc * 10 + d) cs

/-- Python's `int(s)` restricted to nonempty all-digit tokens (the shape the
protocol's `<size>` field takes); any other token is a `ValueError`. -/
def parseNat (l : List Char) : Option Nat :=
  if l.isEmpty then none else parseNatGo 0 l

/-- Python's `int(s)` as applied to a full reply line by `incr`/`decr`
(client.py lines 509, 534): surrounding whitespace stripped, an optional
sign, then a nonempty digit run; anything else raises `ValueError`. -/
def pyInt (l : List Char) : Option Int :=
  let t := ((l.dropWhile isPySpace).reverse.dropWhile isPySpace).reverse
  match t with
  | '-' :: ds => (parseNat ds).map fun n => -(n : Int)
  | '+' :: ds => (parseNat ds).map fun n => (n : Int)
  | ds => (parseNat ds).map fun n => (n : Int)

/-- Python's `line[line.find(' ') + 1:]` (client.py lines 591, 595): the
remainder after the first space, or the whole line when it has no space. -/
def afterFirstSpace (l : List Char) : List Char :=
  match l.findIdx? (· = ' ') with
  | some i => l.drop (i + 1)
  | none => l

/-- `Client._raise_errors(line, name)` (client.py lines 586-596): classify
the error-token prefixes of a response line, in the source's order. -/
def _raise_errors (line name : List Char) : Except Err Unit :=
  if startswith (chars "ERROR") line then .error (.unknownCommand name)
  else if startswith (chars "CLIENT_ERROR") line then
    .error (.clientError (afterFirstSpace line))
  else if startswith (chars "SERVER_ERROR") line then
    .error (.serverError (afterFirstSpace line))
  else .ok ()

/-- The `VALID_STORE_RESULTS` table (client.py lines 90-97); `none` models a
Python `KeyError` on a name outside the table. -/
def VALID_STORE_RESULTS (name : List Char) : Option (List (List Char)) :=
  if name = chars "set" then some [chars "STORED"]
  else if name = chars "add" then some [chars "STORED", chars "NOT_STORED"]
  else if name = chars "replace" then some [chars "STORED", chars "NOT_STORED"]
  else if name = chars "append" then some [chars "STORED", chars "NOT_STORED"]
  else if name = chars "prepend" then some [chars "STORED", chars "NOT_STORED"]
  else if name = chars "cas" then
    some [chars "STORED", chars "EXISTS", chars "NOT_FOUND"]
  else none

/-- The client's mutable per-instance state that the claims concern:
`self.sock` collapsed to whether a socket is set, and `self.buf`, the
pending buffer (client.py lines 243-244). -/
structure ClientState where
  connected : Bool
  buf : List Char
deriving DecidableEq, Repr

/-- Behaviour of the external socket for one command exchange: whether
`socket.connect` succeeds, whether `sendall` succeeds, and the chunks
successive `recv` calls deliver. -/
structure Conn where
  connectOk : Bool
  sendOk : Bool
  chunks : List (List Char)
deriving DecidableEq, Repr

/-- A Python 2 value handed to `'...'.format(...)`: `bytes` is a byte string
that formats verbatim; `unencodable` models an argument whose formatting
raises `UnicodeEncodeError` (CPython's codec machinery is external to this
embedding), carrying `str(e)`. -/
inductive PyData where
  | bytes (b : List Char)
  | unencodable (msg : List Char)
deriving DecidableEq, Repr

/-- The wire encoding built by `_store_cmd` (client.py lines 651-662):
`'{} {} {} {} {}{}\r\n{}\r\n'.format(name, key, flags, expire, len(data),
extra, data)` with `extra` from the four-way `cas`/`noreply` branch. -/
def storeCmdBytes (name key : List Char) (flags expire : Nat) (data : List Char)
    (cas : Option (List Char)) (noreply : Bool) : List Char :=
  let extra :=
    match cas, noreply with
    | some c, true => ' ' :: (c ++ chars " noreply")
    | some c, false => ' ' :: c
    | none, true => chars " noreply"
    | none, false => []
  name ++ ' ' :: (key ++ ' ' :: (natToChars flags ++ ' ' ::
    (natToChars expire ++ ' ' :: (natToChars data.length ++ extra ++
      chars "\r\n" ++ data ++ chars "\r\n"))))

/-- `Client._store_cmd` (client.py lines 642-681), with no serializer
configured (so `flags = 0`, the source's `else` branch). The
`UnicodeEncodeError → MemcacheClientError` re-raise sits outside the
`try/except` that closes the connection, so an `unencodable` argument
propagates with the connection still set; every failure inside the `try`
(send, read, error tokens, table lookup, classification) closes the
connection and empties the buffer first. -/
def _store_cmd (st : ClientState) (conn : Conn) (name key : List Char)
    (expire : Nat) (noreply : Bool) (data : PyData) (cas : Option (List Char)) :
    ClientState × Except Err (Option (List Char)) :=
  if !st.connected && !conn.connectOk then (st, .error .transport)
  else
    let st1 : ClientState := ⟨true, st.buf⟩
    match data with
    | .unencodable m => (st1, .error (.clientError m))
    | .bytes d =>
      let _cmd := storeCmdBytes name key 0 expire d cas noreply
      if !conn.sendOk then (⟨false, []⟩, .error .transport)
      else if noreply then (st1, .ok none)
      else
        match _readline st1.buf conn.chunks with
        | .error e => (⟨false, []⟩, .error e)
        | .ok (buf1, line, _) =>
          match _raise_errors line name with
          | .error e => (⟨false, []⟩, .error e)
          | .ok _ =>
            match VALID_STORE_RESULTS name with
            | none => (⟨false, []⟩, .error .keyError)
            | some valid =>
              if valid.contains line then (⟨true, buf1⟩, .ok (some line))
              else (⟨false, []⟩, .error (.unknownError (line.take 32)))

/-- `Client._misc_cmd` (client.py lines 683-699). Note the source reads with
`_, line = _readline(self.sock, '')`: it passes an empty buffer instead of
`self.buf` and discards the trailing bytes `_readline` returns, leaving
`self.buf` untouched on success. -/
def _misc_cmd (st : ClientState) (conn : Conn) (_cmd cmdName : List Char)
    (noreply : Bool) : ClientState × Except Err (Option (List Char)) :=
  if !st.connected && !conn.connectOk then (st, .error .transport)
  else
    let st1 : ClientState := ⟨true, st.buf⟩
    if !conn.sendOk then (⟨false, []⟩, .error .transport)
    else if noreply then (st1, .ok none)
    else
      match _readline [] conn.chunks with
      | .error e => (⟨false, []⟩, .error e)
      | .ok (_, line, _) =>
        match _raise_errors line cmdName with
        | .error e => (⟨false, []⟩, .error e)
        | .ok _ => (st1, .ok (some line))

/-- `Client.flush_all` (client.py lines 559-572): build
`'flush_all {}{}\r\n'` and run it through `_misc_cmd`. -/
def flush_all (st : ClientState) (conn : Conn) (delay : Nat) (noreply : Bool) :
    ClientState × Except Err (Option (List Char)) :=
  let cmd := chars "flush_all " ++ natToChars delay ++
    (if noreply then chars " noreply" else []) ++ chars "\r\n"
  _misc_cmd st conn cmd (chars "flush_all") noreply

/-- Result of `incr`/`decr`: `none` under noreply, the literal `NOT_FOUND`
token (left), or the parsed integer (right). -/
abbrev ArithResult := Option (List Char ⊕ Int)

/-- Shared body of `Client.incr` (client.py lines 486-509) and
`Client.decr` (lines 511-534): run the command line through `_misc_cmd`;
under noreply return `None`; return a literal `'NOT_FOUND'` reply verbatim;
otherwise apply `int(result)`, whose `ValueError` on an unparsable reply
propagates without touching the connection. -/
def arithCmd (opname : List Char) (st : ClientState) (conn : Conn)
    (key : List Char) (delta : Nat) (noreply : Bool) :
    ClientState × Except Err ArithResult :=
  let cmd := opname ++ ' ' :: (key ++ ' ' :: (natToChars delta ++
    (if noreply then chars " noreply" else []) ++ chars "\r\n"))
  match _misc_cmd st conn cmd opname noreply with
  | (st', .error e) => (st', .error e)
  | (st', .ok none) => (st', .ok none)
  | (st', .ok (some line)) =>
    if noreply then (st', .ok none)
    else if line = chars "NOT_FOUND" then (st', .ok (some (.inl line)))
    else
      match pyInt line with
      | some n => (st', .ok (some (.inr n)))
      | none => (st', .error .valueError)

/-- `Client.incr` (client.py lines 486-509). -/
def incr (st : ClientState) (conn : Conn) (key : List Char) (delta : Nat)
    (noreply : Bool) : ClientState × Except Err ArithResult :=
  arithCmd (chars "incr") st conn key delta noreply

/-- `Client.decr` (client.py lines 511-534). -/
def decr (st : ClientState) (conn : Conn) (key : List Char) (delta : Nat)
    (noreply : Bool) : ClientState × Except Err ArithResult :=
  arithCmd (chars "decr") st conn key delta noreply

/-- A value stored in the fetch result dict: the raw value bytes plus the
cas token when the command expected one (`result[key] = (value, cas)` vs
`result[key] = value`, client.py lines 630-633; no deserializer is
configured in this model, so values stay raw). -/
abbrev FetchV := List Char × Option (List Char)

/-- The fetch result: a Python dict as an insertion-ordered association
list. -/
abbrev FetchDict := List (List Char × FetchV)

/-- Python dict assignment `result[key] = v`: overwrite in place when the
key is present, append otherwise. -/
def dictInsert (d : FetchDict) (k : List Char) (v : FetchV) : FetchDict :=
  if k ∈ d.map Prod.fst then
    d.map fun p => if p.1 = k then (k, v) else p
  else d ++ [(k, v)]

/-- Python `result.get(key)`: the first binding of `k`, if any. -/
def dictFind (d : FetchDict) (k : List Char) : Option FetchV :=
  (d.find? fun p => p.1 == k).map Prod.snd

/-- The `VALUE` header unpacking of `_fetch_cmd` (client.py lines 618-625):
`_, key, flags, size[, cas] = line.split()` — a `ValueError` unless the
line splits into exactly the expected number of tokens — followed by
`int(size)`. Returns `(key, flags, size, cas?)`. -/
def parseValueHeader (expectCas : Bool) (line : List Char) :
    Except Err (List Char × List Char × Nat × Option (List Char)) :=
  if expectCas then
    match pySplit line with
    | [_, key, flags, size, casv] =>
      match parseNat size with
      | some n => .ok (key, flags, n, some casv)
      | none => .error .valueError
    | _ => .error .valueError
  else
    match pySplit line with
    | [_, key, flags, size] =>
      match parseNat size with
      | some n => .ok (key, flags, n, none)
      | none => .error .valueError
    | _ => .error .valueError

/-- The `while True` response loop of `_fetch_cmd` (client.py lines
611-635), with explicit fuel (`none` models an execution that does not
finish within `fuel` iterations; the source loop has no bound). Each
iteration reads a line, applies `_raise_errors`, returns the accumulated
dict on `END`, reads and records a value on a `VALUE` header, and fails
with `MemcacheUnknownError(line[:32])` otherwise. -/
def fetchLoop (fuel : Nat) (expectCas : Bool) (name : List Char)
    (acc : FetchDict) (buf : List Char) (stream : List (List Char)) :
    Option (Except Err (FetchDict × List Char × List (List Char))) :=
  match fuel with
  | 0 => none
  | fuel' + 1 =>
    match _readline buf stream with
    | .error e => some (.error e)
    | .ok (buf1, line, s1) =>
      match _raise_errors line name with
      | .error e => some (.error e)
      | .ok _ =>
        if line = chars "END" then some (.ok (acc, buf1, s1))
        else if startswith (chars "VALUE") line then
          match parseValueHeader expectCas line with
          | .error e => some (.error e)
          | .ok (key, _flags, size, casv) =>
            match _readvalue buf1 size s1 with
            | .error e => some (.error e)
            | .ok (buf2, value, s2) =>
              fetchLoop fuel' expectCas name (dictInsert acc key (value, casv)) buf2 s2
        else some (.error (.unknownError (line.take 32)))

/-- `Client._fetch_cmd` (client.py lines 598-640), with no deserializer
configured. Connect-on-demand and the `UnicodeEncodeError →
MemcacheClientError` re-raise happen before the `try` whose handler closes
the connection and, under `ignore_exc`, converts the failure into an empty
dict. -/
def _fetch_cmd (fuel : Nat) (ignoreExc : Bool) (st : ClientState)
    (conn : Conn) (name : List Char) (keysEnc : PyData) (expectCas : Bool) :
    Option (ClientState × Except Err FetchDict) :=
  if !st.connected && !conn.connectOk then some (st, .error .transport)
  else
    let st1 : ClientState := ⟨true, st.buf⟩
    match keysEnc with
    | .unencodable m => some (st1, .error (.clientError m))
    | .bytes _ =>
      if !conn.sendOk then
        some (if ignoreExc then ((⟨false, []⟩ : ClientState), .ok [])
          else (⟨false, []⟩, .error .transport))
      else
        match fetchLoop fuel expectCas name [] st1.buf conn.chunks with
        | none => none
        | some (.error e) =>
          some (if ignoreExc then ((⟨false, []⟩ : ClientState), .ok [])
            else (⟨false, []⟩, .error e))
        | some (.ok (d, buf', _)) => some (⟨true, buf'⟩, .ok d)

/-- Python's `' '.join(keys)`. -/
def joinSpace : List (List Char) → List Char
  | [] => []
  | [k] => k
  | k :: rest => k ++ ' ' :: joinSpace rest

/-- `Client.get_many` (client.py lines 405-420): an empty key list returns
`{}` before any connection or socket use; otherwise `_fetch_cmd('get',
keys, False)`. -/
def get_many (fuel : Nat) (ignoreExc : Bool) (st : ClientState) (conn : Conn)
    (keys : List (List Char)) : Option (ClientState × Except Err FetchDict) :=
  if keys.isEmpty then some (st, .ok [])
  else _fetch_cmd fuel ignoreExc st conn (chars "get") (.bytes (joinSpace keys)) false

/-- `Client.gets_many` (client.py lines 434-449). -/
def gets_many (fuel : Nat) (ignoreExc : Bool) (st : ClientState) (conn : Conn)
    (keys : List (List Char)) : Option (ClientState × Except Err FetchDict) :=
  if keys.isEmpty then some (st, .ok [])
  else _fetch_cmd fuel ignoreExc st conn (chars "gets") (.bytes (joinSpace keys)) true

/-- `Client.get` (client.py lines 393-403):
`self._fetch_cmd('get', [key], False).get(key, None)`. -/
def get (fuel : Nat) (ignoreExc : Bool) (st : ClientState) (conn : Conn)
    (key : List Char) : Option (ClientState × Except Err (Option FetchV)) :=
  match _fetch_cmd fuel ignoreExc st conn (chars "get") (.bytes key) false with
  | none => none
  | some (st', .error e) => some (st', .error e)
  | some (st', .ok d) => some (st', .ok (dictFind d key))

/-- `Client.gets` (client.py lines 422-432):
`self._fetch_cmd('gets', [key], True).get(key, (None, None))`. -/
def gets (fuel : Nat) (ignoreExc : Bool) (st : ClientState) (conn : Conn)
    (key : List Char) :
    Option (ClientState × Except Err (Option (List Char) × Option (List Char))) :=
  match _fetch_cmd fuel ignoreExc st conn (chars "gets") (.bytes key) true with
  | none => none
  | some (st', .error e) => some (st', .error e)
  | some (st', .ok d) =>
    match dictFind d key with
    | some (v, c) => some (st', .ok (some v, c))
    | none => some (st', .ok (none, none))

/-- `Client.set` (client.py lines 266-280): `_store_cmd('set', ...)` with
no cas token. -/
def set (st : ClientState) (conn : Conn) (key : List Char) (data : PyData)
    (expire : Nat) (noreply : Bool) : ClientState × Except Err (Option (List Char)) :=
  _store_cmd st conn (chars "set") key expire noreply data none

/-- `Client.cas` (client.py lines 374-391): `_store_cmd('cas', ...)` with
the caller's cas token. -/
def cas (st : ClientState) (conn : Conn) (key : List Char) (data : PyData)
    (casv : List Char) (expire : Nat) (noreply : Bool) :
    ClientState × Except Err (Option (List Char)) :=
  _store_cmd st conn (chars "cas") key expire noreply data (some casv)

/-- A single item of a well-formed server reply to a fetch command, used to
state C9: the server sent `VALUE <key> <flags> <size>[ <cas>]\r\n` followed
by `<payload>\r\n`. This is input construction (the server side of the
wire), built per the protocol grammar in the specification. -/
structure Item where
  key : List Char
  flags : List Char
  payload : List Char
  casTok : List Char
deriving DecidableEq, Repr

/-- The `VALUE` header line of an item (terminator not included). -/
def valueHeader (expectCas : Bool) (it : Item) : List Char :=
  chars "VALUE" ++ ' ' :: (it.key ++ ' ' :: (it.flags ++ ' ' ::
    (natToChars it.payload.length ++ (if expectCas then ' ' :: it.casTok else []))))

/-- Wire bytes of one item: header, terminator, payload, terminator. -/
def itemBytes (expectCas : Bool) (it : Item) : List Char :=
  valueHeader expectCas it ++ chars "\r\n" ++ it.payload ++ chars "\r\n"

/-- A whole well-formed fetch reply: the items back to back, then
`END\r\n`. -/
def serializeReply (expectCas : Bool) (items : List Item) : List Char :=
  (items.map (itemBytes expectCas)).flatten ++ chars "END\r\n"

/-- The dict entry `_fetch_cmd` records for an item. -/
def entry (expectCas : Bool) (it : Item) : List Char × FetchV :=
  (it.key, (it.payload, if expectCas then some it.casTok else none))

/-- Well-formedness of an item's header tokens: the key, flags and (when
expected) cas tokens are nonempty and free of whitespace, so the header
line is a single line that splits into exactly its tokens. -/
def wfItem (expectCas : Bool) (it : Item) : Prop :=
  it.key ≠ [] ∧ (∀ c ∈ it.key, isPySpace c = false) ∧
  it.flags ≠ [] ∧ (∀ c ∈ it.flags, isPySpace c = false) ∧
  (expectCas = true → it.casTok ≠ [] ∧ ∀ c ∈ it.casTok, isPySpace c = false)

instance (expectCas : Bool) (it : Item) : Decidable (wfItem expectCas it) := by
  unfold wfItem; infer_instance

/-- A digit character is never whitespace. -/
theorem isPySpace_digitChar (d : Nat) : isPySpace (digitChar d) = false := by
  unfold digitChar
  split <;> decide

/-- Every character of `str(n)` is a digit character. -/
theorem natToChars_mem (n : Nat) :
    ∀ c ∈ natToChars n, ∃ d, d < 10 ∧ c = digitChar d := by
  induction n using Nat.strong_induction_on with
  | _ n ih =>
    rw [natToChars]
    split
    · rename_i h
      intro c hc
      simp only [List.mem_singleton] at hc
      exact ⟨n, h, hc⟩
    · rename_i h
      intro c hc
      rcases List.mem_append.1 hc with h1 | h1
      · exact ih (n / 10) (Nat.div_lt_self (by omega) (by omega)) c h1
      · simp only [List.mem_singleton] at h1
        exact ⟨n % 10, Nat.mod_lt _ (by omega), h1⟩

/-- `str(n)` contains no whitespace. -/
theorem natToChars_no_space (n : Nat) :
    ∀ c ∈ natToChars n, isPySpace c = false := by
  intro c hc
  obtain ⟨d, -, rfl⟩ := natToChars_mem n c hc
  exact isPySpace_digitChar d

/-- `str(n)` is nonempty. -/
theorem natToChars_ne_nil (n : Nat) : natToChars n ≠ [] := by
  rw [natToChars]
  split <;> simp

/-- Parsing a digit character gives back its value. -/
theorem digitVal_digitChar (d : Nat) (h : d < 10) :
    digitVal (digitChar d) = some d := by
  interval_cases d <;> decide

/-- The accumulating parser processes an append in two stages. -/
theorem parseNatGo_append (xs : List Char) :
    ∀ (a v : Nat), parseNatGo a xs = some v →
      ∀ ys, parseNatGo a (xs ++ ys) = parseNatGo v ys := by
  induction xs with
  | nil =>
    intro a v h ys
    simp [parseNatGo] at h
    subst h
    rfl
  | cons c cs ih =>
    intro a v h ys
    simp only [parseNatGo] at h ⊢
    cases hd : digitVal c with
    | none => simp [hd] at h
    | some d =>
      rw [hd] at h
      simpa using ih _ _ h ys

/-- The decimal round-trip, with an accumulator. -/
theorem parseNatGo_natToChars (n : Nat) :
    ∀ a, parseNatGo a (natToChars n) =
      some (a * 10 ^ (natToChars n).length + n) := by
  induction n using Nat.strong_induction_on with
  | _ n ih =>
    intro a
    rw [natToChars]
    split
    · rename_i h
      simp [parseNatGo, digitVal_digitChar n h]
    · rename_i h
      have hlt : n / 10 < n := Nat.div_lt_self (by omega) (by omega)
      have h1 := ih (n / 10) hlt a
      have h2 := parseNatGo_append (natToChars (n / 10)) a _ h1
        [digitChar (n % 10)]
      rw [h2]
      simp [parseNatGo, digitVal_digitChar (n % 10) (Nat.mod_lt _ (by omega)),
        List.length_append, pow_succ]
      have := Nat.div_add_mod n 10
      ring_nf
      omega

/-- Python `int(str(n)) = n` for nonnegative `n`. -/
theorem parseNat_natToChars (n : Nat) : parseNat (natToChars n) = some n := by
  have hne : (natToChars n).isEmpty = false := by
    simp [List.isEmpty_iff, natToChars_ne_nil n]
  simp [parseNat, hne, parseNatGo_natToChars n 0]

/-- Splitting at the first terminator of `l ++ "\r\n" ++ r` when `l` is
`'\r'`-free finds exactly that terminator. -/
theorem splitCRLF_append_crlf (l r : List Char) (h : ∀ c ∈ l, c ≠ '\r') :
    splitCRLF (l ++ '\r' :: '\n' :: r) = some (l, r) := by
  induction l with
  | nil => simp [splitCRLF]
  | cons c cs ih =>
    have hc : c ≠ '\r' := h c (by simp)
    simp [splitCRLF, hc, ih fun x hx => h x (by simp [hx])]

/-- When the carried-over buffer already contains a terminator, `_readline`
returns at once, consuming nothing from the stream. -/
theorem readline_of_splitCRLF (buf a b : List Char) (s : List (List Char))
    (h : splitCRLF buf = some (a, b)) : _readline buf s = .ok (b, a, s) := by
  rw [_readline, readlineLoop, h]
  simp

/-- `_readline` on an empty buffer first pulls one (nonempty) chunk. -/
theorem readline_empty_buf_cons (w : List Char) (s : List (List Char))
    (hw : w ≠ []) : _readline [] (w :: s) = _readline w s := by
  rw [_readline, readlineLoop]
  simp [splitCRLF, List.isEmpty_iff, hw, _readline]

/-- When the carried-over buffer holds the whole value and its terminator,
`_readvalue` slices it without touching the stream. -/
theorem readvalue_in_buffer (payload r : List Char) (s : List (List Char)) :
    _readvalue (payload ++ '\r' :: '\n' :: r) payload.length s =
      .ok (r, payload, s) := by
  rw [_readvalue, readvalueLoop]
  have hlen : (payload ++ '\r' :: '\n' :: r).length =
      payload.length + 2 + r.length := by
    simp [List.length_append]
    omega
  have hgt : ¬ (payload.length + 2 > (payload ++ '\r' :: '\n' :: r).length) := by
    omega
  have h1 : ¬ (payload.length + 2 = 1) := by omega
  simp only [hgt, if_false, h1, if_false, Nat.add_sub_cancel]
  have htake : (payload ++ '\r' :: '\n' :: r).take payload.length = payload :=
    List.take_left payload _
  have hdrop : (payload ++ '\r' :: '\n' :: r).drop (payload.length + 2) = r := by
    have : ((payload ++ ['\r', '\n']) ++ r).drop (payload.length + 2) = r :=
      List.drop_left' (by simp)
    simpa using this
  simp [htake, hdrop]

/-- `str.split()` pulls off one whitespace-free token followed by a space. -/
theorem pySplitGo_token_sep (t : List Char) :
    ∀ (cur r : List Char), (∀ c ∈ t, isPySpace c = false) →
      (cur = [] → t ≠ []) →
      pySplitGo cur (t ++ ' ' :: r) = (cur.reverse ++ t) :: pySplitGo [] r := by
  induction t with
  | nil =>
    intro cur r _ hne
    have hcur : cur ≠ [] := fun h => hne h rfl
    have : cur.isEmpty = false := by simp [List.isEmpty_iff, hcur]
    simp [pySplitGo, isPySpace, this]
  | cons c cs ih =>
    intro cur r h hne
    have hc : isPySpace c = false := h c (by simp)
    have hrec := ih (c :: cur) r (fun x hx => h x (by simp [hx])) (by simp)
    calc pySplitGo cur ((c :: cs) ++ ' ' :: r)
        = pySplitGo (c :: cur) (cs ++ ' ' :: r) := by
          simp [pySplitGo, hc]
      _ = ((c :: cur).reverse ++ cs) :: pySplitGo [] r := hrec
      _ = (cur.reverse ++ c :: cs) :: pySplitGo [] r := by simp

/-- `str.split()` turns a trailing whitespace-free token into the final
token. -/
theorem pySplitGo_last (t : List Char) :
    ∀ cur, (∀ c ∈ t, isPySpace c = false) → (cur = [] → t ≠ []) →
      pySplitGo cur t = [cur.reverse ++ t] := by
  induction t with
  | nil =>
    intro cur _ hne
    have hcur : cur ≠ [] := fun h => hne h rfl
    have : cur.isEmpty = false := by simp [List.isEmpty_iff, hcur]
    simp [pySplitGo, this]
  | cons c cs ih =>
    intro cur h hne
    have hc : isPySpace c = false := h c (by simp)
    have hrec := ih (c :: cur) (fun x hx => h x (by simp [hx])) (by simp)
    calc pySplitGo cur (c :: cs)
        = pySplitGo (c :: cur) cs := by simp [pySplitGo, hc]
      _ = [(c :: cur).reverse ++ cs] := hrec
      _ = [cur.reverse ++ c :: cs] := by simp

/-- A well-formed `VALUE` header splits into exactly its tokens. -/
theorem pySplit_valueHeader (ec : Bool) (it : Item) (h : wfItem ec it) :
    pySplit (valueHeader ec it) =
      chars "VALUE" :: it.key :: it.flags ::
        (if ec then [natToChars it.payload.length, it.casTok]
         else [natToChars it.payload.length]) := by
  obtain ⟨hk1, hk2, hf1, hf2, hcas⟩ := h
  rw [pySplit, valueHeader]
  rw [pySplitGo_token_sep (chars "VALUE") [] _ (by decide) (fun _ => by decide)]
  rw [pySplitGo_token_sep it.key [] _ hk2 (fun _ => hk1)]
  rw [pySplitGo_token_sep it.flags [] _ hf2 (fun _ => hf1)]
  cases ec with
  | false =>
    simp only [Bool.false_eq_true, if_false, List.append_nil]
    rw [pySplitGo_last (natToChars it.payload.length) []
      (natToChars_no_space _) (fun _ => natToChars_ne_nil _)]
    simp
  | true =>
    obtain ⟨hc1, hc2⟩ := hcas rfl
    simp only [if_true]
    rw [pySplitGo_token_sep (natToChars it.payload.length) [] it.casTok
      (natToChars_no_space _) (fun _ => natToChars_ne_nil _)]
    rw [pySplitGo_last it.casTok [] hc2 (fun _ => hc1)]
    simp

/-- Parsing a well-formed `VALUE` header recovers its fields, with the size
equal to the payload's length. -/
theorem parseValueHeader_valueHeader (ec : Bool) (it : Item)
    (h : wfItem ec it) :
    parseValueHeader ec (valueHeader ec it) =
      .ok (it.key, it.flags, it.payload.length,
        if ec then some it.casTok else none) := by
  cases ec with
  | false =>
    have hs := pySplit_valueHeader false it h
    simp only [Bool.false_eq_true, if_false] at hs
    simp [parseValueHeader, hs, parseNat_natToChars]
  | true =>
    have hs := pySplit_valueHeader true it h
    simp only [if_true] at hs
    simp [parseValueHeader, hs, parseNat_natToChars]

/-- A well-formed header line carries none of the three error tokens. -/
theorem raise_errors_valueHeader (ec : Bool) (it : Item) (nm : List Char) :
    _raise_errors (valueHeader ec it) nm = .ok () := by
  rw [valueHeader]
  simp [_raise_errors, startswith, chars]

/-- A well-formed header line is not the `END` line. -/
theorem valueHeader_ne_end (ec : Bool) (it : Item) :
    valueHeader ec it ≠ chars "END" := by
  rw [valueHeader]
  simp [chars]

/-- A well-formed header line starts with `VALUE`. -/
theorem startswith_valueHeader (ec : Bool) (it : Item) :
    startswith (chars "VALUE") (valueHeader ec it) = true := by
  rw [valueHeader]
  simp [startswith, chars]

/-- A well-formed header line contains no `'\r'`. -/
theorem valueHeader_no_cr (ec : Bool) (it : Item) (h : wfItem ec it) :
    ∀ c ∈ valueHeader ec it, c ≠ '\r' := by
  obtain ⟨-, hk2, -, hf2, hcas⟩ := h
  have hsp : ∀ (c : Char), isPySpace c = false → c ≠ '\r' := by
    intro c hc hr
    subst hr
    simp [isPySpace] at hc
  have hV : ∀ x ∈ chars "VALUE", x ≠ '\r' := by decide
  intro c hc
  rw [valueHeader] at hc
  cases ec with
  | false =>
    simp only [Bool.false_eq_true, if_false, List.append_nil, List.mem_append,
      List.mem_cons] at hc
    rcases hc with hc | rfl | hc | rfl | hc | rfl | hc
    · exact hV c hc
    · decide
    · exact hsp c (hk2 c hc)
    · decide
    · exact hsp c (hf2 c hc)
    · decide
    · exact hsp c (natToChars_no_space _ c hc)
  | true =>
    obtain ⟨-, hc2⟩ := hcas rfl
    simp only [if_true, List.mem_append, List.mem_cons] at hc
    rcases hc with hc | rfl | hc | rfl | hc | rfl | hc | rfl | hc
    · exact hV c hc
    · decide
    · exact hsp c (hk2 c hc)
    · decide
    · exact hsp c (hf2 c hc)
    · decide
    · exact hsp c (natToChars_no_space _ c hc)
    · decide
    · exact hsp c (hc2 c hc)

/-- Python dict assignment on an absent key appends the binding. -/
theorem dictInsert_not_mem (d : FetchDict) (k : List Char) (v : FetchV)
    (h : k ∉ d.map Prod.fst) : dictInsert d k v = d ++ [(k, v)] := by
  simp only [dictInsert, if_neg h]

/-- Lookup of an absent key in an entry list built from items. -/
theorem dictFind_not_mem (d : FetchDict) (k : List Char)
    (h : k ∉ d.map Prod.fst) : dictFind d k = none := by
  have : d.find? (fun p => p.1 == k) = none := by
    refine List.find?_eq_none.2 fun p hp hbeq => ?_
    have : p.1 = k := by simpa using hbeq
    exact h (this ▸ List.mem_map_of_mem Prod.fst hp)
  simp [dictFind, this]

/-- One unrolling of the fetch response loop at positive fuel. -/
theorem fetchLoop_succ (f : Nat) (ec : Bool) (nm : List Char) (acc : FetchDict)
    (buf : List Char) (stream : List (List Char)) :
    fetchLoop (f + 1) ec nm acc buf stream =
      match _readline buf stream with
      | .error e => some (.error e)
      | .ok (buf1, line, s1) =>
        match _raise_errors line nm with
        | .error e => some (.error e)
        | .ok _ =>
          if line = chars "END" then some (.ok (acc, buf1, s1))
          else if startswith (chars "VALUE") line then
            match parseValueHeader ec line with
            | .error e => some (.error e)
            | .ok (key, _flags, size, casv) =>
              match _readvalue buf1 size s1 with
              | .error e => some (.error e)
              | .ok (buf2, value, s2) =>
                fetchLoop f ec nm (dictInsert acc key (value, casv)) buf2 s2
          else some (.error (.unknownError (line.take 32))) := rfl

/-- A reply serialized into one chunk is read the same whether it sits in
the pending buffer or arrives as the first `recv`. -/
theorem fetchLoop_single_chunk (fuel : Nat) (ec : Bool) (nm : List Char)
    (acc : FetchDict) (w : List Char) (hw : w ≠ []) :
    fetchLoop fuel ec nm acc [] [w] = fetchLoop fuel ec nm acc w [] := by
  cases fuel with
  | zero => rfl
  | succ f =>
    rw [fetchLoop_succ, fetchLoop_succ, readline_empty_buf_cons w [] hw]

/-- Serialization of a reply unfolds one item at a time. -/
theorem serializeReply_cons (ec : Bool) (it : Item) (rest : List Item) :
    serializeReply ec (it :: rest) =
      valueHeader ec it ++ '\r' :: '\n' ::
        (it.payload ++ '\r' :: '\n' :: serializeReply ec rest) := by
  simp [serializeReply, itemBytes, chars]

/-- A serialized reply is never empty (it ends in `END\r\n`). -/
theorem serializeReply_ne_nil (ec : Bool) (items : List Item) :
    serializeReply ec items ≠ [] := by
  simp [serializeReply, chars]

/-- The fetch loop over a well-formed serialized reply with pairwise
distinct keys accumulates exactly one entry per item, then returns on
`END` with an empty trailing buffer. -/
theorem fetchLoop_serializeReply (ec : Bool) (nm : List Char) :
    ∀ (items : List Item) (acc : FetchDict),
      (∀ it ∈ items, wfItem ec it) →
      (items.map Item.key).Nodup →
      (∀ it ∈ items, it.key ∉ acc.map Prod.fst) →
      fetchLoop (items.length + 1) ec nm acc (serializeReply ec items) [] =
        some (.ok (acc ++ items.map (entry ec), [], [])) := by
  intro items
  induction items with
  | nil =>
    intro acc _ _ _
    simp [serializeReply, fetchLoop, _readline, readlineLoop, splitCRLF,
      _raise_errors, startswith, chars]
  | cons it rest ih =>
    intro acc hwf hnd hacc
    have hwf0 : wfItem ec it := hwf it (by simp)
    have hnd0 : (it.key :: rest.map Item.key).Nodup := by simpa using hnd
    have hhead : it.key ∉ rest.map Item.key := (List.nodup_cons.1 hnd0).1
    have hnd' : (rest.map Item.key).Nodup := (List.nodup_cons.1 hnd0).2
    have hwf' : ∀ x ∈ rest, wfItem ec x := fun x hx => hwf x (by simp [hx])
    have hsplit : splitCRLF (serializeReply ec (it :: rest)) =
        some (valueHeader ec it,
          it.payload ++ '\r' :: '\n' :: serializeReply ec rest) := by
      rw [serializeReply_cons]
      exact splitCRLF_append_crlf _ _ (valueHeader_no_cr ec it hwf0)
    have hread := readline_of_splitCRLF _ _ _ ([] : List (List Char)) hsplit
    have hacc' : ∀ (w : FetchV), ∀ x ∈ rest,
        x.key ∉ (acc ++ [(it.key, w)]).map Prod.fst := by
      intro w x hx
      simp only [List.map_append, List.mem_append, List.map_cons,
        List.map_nil, List.mem_singleton]
      rintro (hmem | hmem)
      · exact hacc x (by simp [hx]) hmem
      · exact hhead (hmem ▸ List.mem_map_of_mem Item.key hx)
    rw [show (it :: rest).length + 1 = (rest.length + 1) + 1 by simp]
    rw [fetchLoop_succ, hread]
    simp only [raise_errors_valueHeader, if_neg (valueHeader_ne_end ec it),
      startswith_valueHeader, if_true, parseValueHeader_valueHeader ec it hwf0,
      readvalue_in_buffer,
      dictInsert_not_mem _ _ _ (hacc it (by simp))]
    rw [ih (acc ++ [(it.key, (it.payload, if ec = true then some it.casTok
      else none))]) hwf' hnd' (hacc' _)]
    simp [entry]

/-- **C1** — REFUTED on the code. `_readvalue` mis-reads a value whose
terminator is split so that exactly the trailing `'\n'` opens the final
chunk. With `size = 1` and the stream delivering `"a\r"` then `"\nXY"`
(payload `"a"`, terminator `"\r\n"`, further bytes `"XY"`), the loop exits
with `rlen = 1` and executes `chunks.append(buf[:-1])`, so the function
returns the 4-byte value `"a\r\nX"` instead of the 1-byte payload `"a"`,
contradicting its own docstring ("there will be exactly size bytes"). The
trailing buffer `"XY"` happens to be correct. -/
theorem readvalue_split_terminator_bug :
    _readvalue [] 1 [chars "a\r", chars "\nXY"] =
      .ok (chars "XY", chars "a\r\nX", []) := by
  simp [_readvalue, readvalueLoop, chars]

/-- **C2** — REFUTED on the code. `_readline` checks `buf.find('\r\n')`
before the terminator-split-across-chunks case, so when one chunk ends in
`'\r'`, the next begins with `'\n'`, and that next chunk also contains a
later `"\r\n"`, the returned line swallows the split terminator: on the
stream `"a\r"`, `"\nb\r\nc"` (whose first line is `"a"`), `_readline`
returns the line `"a\r\nb"` with trailing buffer `"c"` instead of line
`"a"` with trailing buffer `"b\r\nc"`, contradicting its docstring ("line
is the full line read from the socket (minus the '\r\n' characters)"). -/
theorem readline_split_terminator_bug :
    _readline [] [chars "a\r", chars "\nb\r\nc"] =
      .ok (chars "c", chars "a\r\nb", []) := by
  simp [_readline, readlineLoop, splitCRLF, chars]

/-- **C3** — REFUTED on the code. `_misc_cmd` reads its reply line with
`_, line = _readline(self.sock, '')`: it ignores `self.buf` and discards
the trailing bytes `_readline` returns. On a `flush_all` (noreply false)
whose reply arrives as the single chunk `"OK\r\nextra"`, the line `"OK"`
is returned, the bytes `"extra"` were read from the stream past the
terminator (second conjunct), yet the client's pending buffer afterwards
is empty instead of `"extra"` — the stated buffer invariant fails. -/
theorem misc_cmd_discards_trailing_bytes :
    flush_all ⟨true, []⟩ ⟨true, true, [chars "OK\r\nextra"]⟩ 0 false =
      (⟨true, []⟩, .ok (some (chars "OK"))) ∧
    _readline [] [chars "OK\r\nextra"] = .ok (chars "extra", chars "OK", []) := by
  constructor
  · simp [flush_all, _misc_cmd, _readline, readlineLoop, splitCRLF,
      _raise_errors, startswith, chars]
  · simp [_readline, readlineLoop, splitCRLF, chars]

/-- **C4**, counterexample. An error raised while encoding the command does
NOT tear the connection down: the `UnicodeEncodeError → MemcacheClientError`
re-raise in `_store_cmd` (client.py lines 660-664) sits outside the
`try/except` that calls `self.close()`, so a connected client hit by an
encoding failure stays connected, contradicting the claim that after any
fault the client is in the Disconnected state. -/
theorem store_encode_error_leaves_connected :
    _store_cmd ⟨true, []⟩ ⟨true, true, []⟩ (chars "set") (chars "k") 0 false
      (.unencodable (chars "bad")) none =
      ((⟨true, []⟩ : ClientState), .error (.clientError (chars "bad"))) := by
  simp [_store_cmd]

/-- **C4**, amended. Every error raised inside the send/receive `try` of
`_store_cmd`, `_misc_cmd` or `_fetch_cmd` — send failure, unexpected close,
error tokens, unknown response — closes the connection and empties the
buffer before the error reaches the caller; only the pre-`try` steps
(connection establishment and command encoding) can fail with the state
left as it was. For the state invariant `disconnected → empty buffer`
(which holds of every reachable state), any error outcome of a command on
byte-string arguments leaves the client disconnected with an empty
buffer. -/
theorem post_encode_errors_close_connection
    (st : ClientState) (conn : Conn) (hinv : st.connected = false → st.buf = []) :
    (∀ name key expire nr d casv st' e,
        _store_cmd st conn name key expire nr (.bytes d) casv = (st', .error e) →
        st'.connected = false ∧ st'.buf = []) ∧
    (∀ cmd cmdName nr st' e,
        _misc_cmd st conn cmd cmdName nr = (st', .error e) →
        st'.connected = false ∧ st'.buf = []) ∧
    (∀ fuel ig name kd ec st' e,
        _fetch_cmd fuel ig st conn name (.bytes kd) ec = some (st', .error e) →
        st'.connected = false ∧ st'.buf = []) := by
  refine ⟨?_, ?_, ?_⟩
  · intro name key expire nr d casv st' e hres
    simp only [_store_cmd] at hres
    repeat' split at hres
    all_goals try simp only [Prod.mk.injEq] at hres
    all_goals first
      | (obtain ⟨h1, h2⟩ := hres; (try subst h1); (try subst h2); simp_all)
      | simp_all
  · intro cmd cmdName nr st' e hres
    simp only [_misc_cmd] at hres
    repeat' split at hres
    all_goals try simp only [Prod.mk.injEq] at hres
    all_goals first
      | (obtain ⟨h1, h2⟩ := hres; (try subst h1); (try subst h2); simp_all)
      | simp_all
  · intro fuel ig name kd ec st' e hres
    simp only [_fetch_cmd] at hres
    repeat' split at hres
    all_goals try simp only [Prod.mk.injEq, Option.some.injEq] at hres
    all_goals first
      | (obtain ⟨h1, h2⟩ := hres; (try subst h1); (try subst h2); simp_all)
      | simp_all

/-- Witness for the amended C4 theorem at a concrete input: a connected
client whose `sendall` fails ends disconnected with an empty buffer. -/
theorem post_encode_errors_close_connection_witness :
    (⟨false, []⟩ : ClientState).connected = false ∧
      (⟨false, []⟩ : ClientState).buf = ([] : List Char) :=
  (post_encode_errors_close_connection ⟨true, []⟩ ⟨true, false, []⟩
      (by simp)).2.1 (chars "quit") (chars "quit") false ⟨false, []⟩
    .transport (by simp [_misc_cmd])

/-- **C5**, counterexample. With `ignore_exc` enabled, a failure that is
raised while encoding a get-family command is NOT swallowed: the
`UnicodeEncodeError → MemcacheClientError` re-raise in `_fetch_cmd`
(client.py lines 602-605) happens before the `try` whose handler consults
`self.ignore_exc`, so the error propagates instead of an empty mapping
being returned. -/
theorem fetch_ignore_exc_encode_error_propagates :
    _fetch_cmd 1 true ⟨true, []⟩ ⟨true, true, []⟩ (chars "get")
      (.unencodable (chars "bad")) false =
      some ((⟨true, []⟩ : ClientState), .error (.clientError (chars "bad"))) := by
  simp [_fetch_cmd]

/-- **C5**, amended. With `ignore_exc` enabled, every failure arising after
the command is encoded and the connection is established (send, read,
response classification) is swallowed by a get-family command, which
returns an empty mapping; encoding and connection-establishment failures
propagate regardless of `ignore_exc`; non-get commands (`_store_cmd`,
`_misc_cmd`) never consult `ignore_exc` and propagate failures — shown
here for a send failure. -/
theorem ignore_exc_swallows_post_encode_failures :
    (∀ fuel st conn name kd ec st' r,
        (st.connected = true ∨ conn.connectOk = true) →
        _fetch_cmd fuel true st conn name (.bytes kd) ec = some (st', r) →
        ∃ d, r = .ok d) ∧
    (∀ st conn cmd cmdName nr, st.connected = true → conn.sendOk = false →
        _misc_cmd st conn cmd cmdName nr =
          ((⟨false, []⟩ : ClientState), .error .transport)) ∧
    (∀ st conn name key expire nr d casv,
        st.connected = true → conn.sendOk = false →
        _store_cmd st conn name key expire nr (.bytes d) casv =
          ((⟨false, []⟩ : ClientState), .error .transport)) := by
  refine ⟨?_, ?_, ?_⟩
  · intro fuel st conn name kd ec st' r hup hres
    simp only [_fetch_cmd] at hres
    repeat' split at hres
    all_goals try simp only [Prod.mk.injEq, Option.some.injEq] at hres
    all_goals first
      | (obtain ⟨h1, h2⟩ := hres; (try subst h1); (try subst h2); simp_all)
      | simp_all
  · intro st conn cmd cmdName nr hc hs
    simp [_misc_cmd, hc, hs]
  · intro st conn name key expire nr d casv hc hs
    simp [_store_cmd, hc, hs]

/-- Witness for the amended C5 theorem: a connected client with a failing
`sendall` and `ignore_exc` on gets back an `.ok` (empty) mapping, and the
concrete execution confirms it. -/
theorem ignore_exc_swallows_post_encode_failures_witness :
    (∃ d, (.ok [] : Except Err FetchDict) = .ok d) ∧
    _fetch_cmd 1 true ⟨true, []⟩ ⟨true, false, []⟩ (chars "get")
      (.bytes (chars "k")) false = some ((⟨false, []⟩ : ClientState), .ok []) := by
  constructor
  · exact ignore_exc_swallows_post_encode_failures.1 1 ⟨true, []⟩
      ⟨true, false, []⟩ (chars "get") (chars "k") false ⟨false, []⟩ (.ok [])
      (Or.inl rfl) (by simp [_fetch_cmd])
  · simp [_fetch_cmd]

/-- **C6** — confirmed. For a store-family command with noreply false whose
reply line passed the error-token checks, the line is returned verbatim
exactly when it belongs to the command's entry in `VALID_STORE_RESULTS`
(set → STORED; add/replace/append/prepend → STORED, NOT_STORED; cas →
STORED, EXISTS, NOT_FOUND); any other line raises
`MemcacheUnknownError(line[:32])`, a 32-byte-bounded prefix, and closes the
connection. -/
theorem store_response_classification
    (st : ClientState) (conn : Conn) (name key : List Char) (expire : Nat)
    (d : List Char) (casv : Option (List Char)) (valid : List (List Char))
    (buf1 line : List Char) (s1 : List (List Char))
    (hconn : st.connected = true) (hsend : conn.sendOk = true)
    (hread : _readline st.buf conn.chunks = .ok (buf1, line, s1))
    (herr : _raise_errors line name = .ok ())
    (hvalid : VALID_STORE_RESULTS name = some valid) :
    _store_cmd st conn name key expire false (.bytes d) casv =
      if valid.contains line then ((⟨true, buf1⟩ : ClientState), .ok (some line))
      else ((⟨false, []⟩ : ClientState), .error (.unknownError (line.take 32))) := by
  simp [_store_cmd, hconn, hsend, hread, herr, hvalid]

/-- Witness for C6 at two concrete inputs: a `set` answered `STORED` is
returned verbatim, and a `set` answered `HUH?` is an unknown-response
failure carrying the line prefix. -/
theorem store_response_classification_witness :
    _store_cmd ⟨true, []⟩ ⟨true, true, [chars "STORED\r\n"]⟩ (chars "set")
      (chars "k") 0 false (.bytes (chars "v")) none =
      ((⟨true, []⟩ : ClientState), .ok (some (chars "STORED"))) ∧
    _store_cmd ⟨true, []⟩ ⟨true, true, [chars "HUH?\r\n"]⟩ (chars "set")
      (chars "k") 0 false (.bytes (chars "v")) none =
      ((⟨false, []⟩ : ClientState), .error (.unknownError (chars "HUH?"))) := by
  constructor
  · have h := store_response_classification ⟨true, []⟩
      ⟨true, true, [chars "STORED\r\n"]⟩ (chars "set") (chars "k") 0
      (chars "v") none [chars "STORED"] [] (chars "STORED") [] rfl rfl
      (by simp [_readline, readlineLoop, splitCRLF, chars])
      (by simp [_raise_errors, startswith, chars])
      (by simp [VALID_STORE_RESULTS, chars])
    simpa [chars] using h
  · have h := store_response_classification ⟨true, []⟩
      ⟨true, true, [chars "HUH?\r\n"]⟩ (chars "set") (chars "k") 0
      (chars "v") none [chars "STORED"] [] (chars "HUH?") [] rfl rfl
      (by simp [_readline, readlineLoop, splitCRLF, chars])
      (by simp [_raise_errors, startswith, chars])
      (by simp [VALID_STORE_RESULTS, chars])
    simpa [chars] using h

/-- **C7** — confirmed. The bytes `_store_cmd` sends are exactly
`<name> <key> <flags> <expiry> <len(data)>[ <cas>][ noreply]\r\n<data>\r\n`:
the four-way `extra` branch of the source collapses to an optional cas
token followed by an optional noreply suffix, the declared length token is
`str(len(data))` — the length of the actual payload bytes — and the `set`
and `cas` dispatchers pass no cas token and the caller's cas token
respectively. -/
theorem store_command_encoding_shape :
    (∀ (name key : List Char) (flags expire : Nat) (d : List Char)
        (casv : Option (List Char)) (noreply : Bool),
      storeCmdBytes name key flags expire d casv noreply =
        name ++ chars " " ++ key ++ chars " " ++ natToChars flags ++
        chars " " ++ natToChars expire ++ chars " " ++ natToChars d.length ++
        (match casv with | some c => ' ' :: c | none => []) ++
        (if noreply then chars " noreply" else []) ++
        chars "\r\n" ++ d ++ chars "\r\n") ∧
    (∀ st conn key data expire noreply,
      set st conn key data expire noreply =
        _store_cmd st conn (chars "set") key expire noreply data none) ∧
    (∀ st conn key data casv expire noreply,
      cas st conn key data casv expire noreply =
        _store_cmd st conn (chars "cas") key expire noreply data (some casv)) := by
  refine ⟨?_, fun _ _ _ _ _ _ => rfl, fun _ _ _ _ _ _ _ => rfl⟩
  intro name key flags expire d casv noreply
  cases casv <;> cases noreply <;> simp [storeCmdBytes, chars]

/-- **C8** — confirmed. `incr` and `decr` with noreply true return `None`;
with noreply false they return `int(line)` for a reply line `line`, except
the literal `NOT_FOUND` reply which is returned verbatim as a token (the
hypotheses say the reply line was read successfully and carries no error
token; parsability is assumed for the integer branch, since an unparsable
line raises `ValueError` instead). -/
theorem incr_decr_result_semantics
    (st : ClientState) (conn : Conn) (key : List Char) (delta : Nat)
    (buf1 line : List Char) (s1 : List (List Char))
    (hconn : st.connected = true) (hsend : conn.sendOk = true)
    (hread : _readline [] conn.chunks = .ok (buf1, line, s1))
    (herr : ∀ nm, _raise_errors line nm = .ok ()) :
    (incr st conn key delta true = ((⟨true, st.buf⟩ : ClientState), .ok none) ∧
     decr st conn key delta true = ((⟨true, st.buf⟩ : ClientState), .ok none)) ∧
    (line = chars "NOT_FOUND" →
      incr st conn key delta false =
        ((⟨true, st.buf⟩ : ClientState), .ok (some (.inl line))) ∧
      decr st conn key delta false =
        ((⟨true, st.buf⟩ : ClientState), .ok (some (.inl line)))) ∧
    (∀ n, line ≠ chars "NOT_FOUND" → pyInt line = some n →
      incr st conn key delta false =
        ((⟨true, st.buf⟩ : ClientState), .ok (some (.inr n))) ∧
      decr st conn key delta false =
        ((⟨true, st.buf⟩ : ClientState), .ok (some (.inr n)))) := by
  refine ⟨⟨?_, ?_⟩, ?_, ?_⟩
  · simp [incr, arithCmd, _misc_cmd, hconn, hsend]
  · simp [decr, arithCmd, _misc_cmd, hconn, hsend]
  · intro hnf
    subst hnf
    constructor <;>
      simp [incr, decr, arithCmd, _misc_cmd, hconn, hsend, hread, herr]
  · intro n hnf hparse
    constructor <;>
      simp [incr, decr, arithCmd, _misc_cmd, hconn, hsend, hread, herr, hnf, hparse]

/-- Witness for C8 at two concrete inputs, as in the specification's
example: a reply `"7"` yields the integer 7; a reply `"NOT_FOUND"` yields
the literal token. -/
theorem incr_decr_result_semantics_witness :
    incr ⟨true, []⟩ ⟨true, true, [chars "7\r\n"]⟩ (chars "ctr") 5 false =
      ((⟨true, []⟩ : ClientState), .ok (some (.inr 7))) ∧
    incr ⟨true, []⟩ ⟨true, true, [chars "NOT_FOUND\r\n"]⟩ (chars "ctr") 5 false =
      ((⟨true, []⟩ : ClientState), .ok (some (.inl (chars "NOT_FOUND")))) := by
  constructor
  · exact ((incr_decr_result_semantics ⟨true, []⟩ ⟨true, true, [chars "7\r\n"]⟩
      (chars "ctr") 5 [] (chars "7") [] rfl rfl
      (by simp [_readline, readlineLoop, splitCRLF, chars])
      (by intro nm; simp [_raise_errors, startswith, chars])).2.2 7
      (by decide) (by decide)).1
  · exact ((incr_decr_result_semantics ⟨true, []⟩
      ⟨true, true, [chars "NOT_FOUND\r\n"]⟩ (chars "ctr") 5 []
      (chars "NOT_FOUND") [] rfl rfl
      (by simp [_readline, readlineLoop, splitCRLF, chars])
      (by intro nm; simp [_raise_errors, startswith, chars])).2.1 rfl).1

/-- **C9** — confirmed. `get_many` and `gets_many` on an empty key list
return an empty mapping for every state and every connection behaviour
(showing no connection or wire I/O is performed); and on a non-empty
request answered by a well-formed reply whose items have pairwise distinct
keys, the returned mapping — for `get_many` with plain values, and for
`gets_many` with `(value, cas)` entries parsed from the 5-token headers —
is exactly one entry per `VALUE` header the server sent before `END`, and
any key without a `VALUE` header is absent from the mapping (`dictFind` is
`none`, never a placeholder binding). -/
theorem get_many_returns_exactly_server_keys :
    (∀ (fuel : Nat) (ig : Bool) (st : ClientState) (conn : Conn),
      get_many fuel ig st conn [] = some (st, .ok []) ∧
      gets_many fuel ig st conn [] = some (st, .ok [])) ∧
    (∀ (ig co : Bool) (keys : List (List Char)) (items : List Item),
      keys ≠ [] →
      (∀ it ∈ items, wfItem false it) →
      (items.map Item.key).Nodup →
      get_many (items.length + 1) ig ⟨true, []⟩
          ⟨co, true, [serializeReply false items]⟩ keys =
        some ((⟨true, []⟩ : ClientState), .ok (items.map (entry false))) ∧
      ∀ k, k ∉ items.map Item.key →
        dictFind (items.map (entry false)) k = none) ∧
    (∀ (ig co : Bool) (keys : List (List Char)) (items : List Item),
      keys ≠ [] →
      (∀ it ∈ items, wfItem true it) →
      (items.map Item.key).Nodup →
      gets_many (items.length + 1) ig ⟨true, []⟩
          ⟨co, true, [serializeReply true items]⟩ keys =
        some ((⟨true, []⟩ : ClientState), .ok (items.map (entry true))) ∧
      ∀ k, k ∉ items.map Item.key →
        dictFind (items.map (entry true)) k = none) := by
  refine ⟨?_, ?_, ?_⟩
  · intro fuel ig st conn
    constructor <;> simp [get_many, gets_many]
  · intro ig co keys items hkeys hwf hnd
    constructor
    · have hne : keys.isEmpty = false := by simp [List.isEmpty_iff, hkeys]
      simp only [get_many, hne, Bool.false_eq_true, if_false, _fetch_cmd,
        Bool.not_true, Bool.false_and, Bool.not_false]
      rw [fetchLoop_single_chunk _ _ _ _ _ (serializeReply_ne_nil _ _),
        fetchLoop_serializeReply false (chars "get") items [] hwf hnd
          (by simp)]
      simp
    · intro k hk
      apply dictFind_not_mem
      have hfst : (items.map (entry false)).map Prod.fst =
          items.map Item.key := by
        simp [List.map_map, entry, Function.comp]
      rw [hfst]
      exact hk
  · intro ig co keys items hkeys hwf hnd
    constructor
    · have hne : keys.isEmpty = false := by simp [List.isEmpty_iff, hkeys]
      simp only [gets_many, hne, Bool.false_eq_true, if_false, _fetch_cmd,
        Bool.not_true, Bool.false_and, Bool.not_false]
      rw [fetchLoop_single_chunk _ _ _ _ _ (serializeReply_ne_nil _ _),
        fetchLoop_serializeReply true (chars "gets") items [] hwf hnd
          (by simp)]
      simp
    · intro k hk
      apply dictFind_not_mem
      have hfst : (items.map (entry true)).map Prod.fst =
          items.map Item.key := by
        simp [List.map_map, entry, Function.comp]
      rw [hfst]
      exact hk

/-- Witness for C9 at the specification's example: keys `{a, b, c}`
requested, the server answers with `VALUE` headers for `a` and `c` only
and `END`; the `get_many` mapping holds exactly `a` and `c` with plain
values, the `gets_many` mapping holds exactly `a` and `c` with their
`(value, cas)` pairs, and `b` is absent from both. -/
theorem get_many_returns_exactly_server_keys_witness :
    (get_many 3 false ⟨true, []⟩
        ⟨true, true, [serializeReply false
          [⟨chars "a", chars "0", chars "valA", chars "1"⟩,
           ⟨chars "c", chars "0", chars "valC", chars "1"⟩]]⟩
        [chars "a", chars "b", chars "c"] =
      some ((⟨true, []⟩ : ClientState), .ok
        [(chars "a", (chars "valA", none)),
         (chars "c", (chars "valC", none))]) ∧
    dictFind
      [(chars "a", (chars "valA", none)), (chars "c", (chars "valC", none))]
      (chars "b") = none) ∧
    (gets_many 3 false ⟨true, []⟩
        ⟨true, true, [serializeReply true
          [⟨chars "a", chars "0", chars "valA", chars "7"⟩,
           ⟨chars "c", chars "0", chars "valC", chars "9"⟩]]⟩
        [chars "a", chars "b", chars "c"] =
      some ((⟨true, []⟩ : ClientState), .ok
        [(chars "a", (chars "valA", some (chars "7"))),
         (chars "c", (chars "valC", some (chars "9")))]) ∧
    dictFind
      [(chars "a", (chars "valA", some (chars "7"))),
       (chars "c", (chars "valC", some (chars "9")))]
      (chars "b") = none) := by
  constructor
  · have h := get_many_returns_exactly_server_keys.2.1 false true
      [chars "a", chars "b", chars "c"]
      [⟨chars "a", chars "0", chars "valA", chars "1"⟩,
       ⟨chars "c", chars "0", chars "valC", chars "1"⟩]
      (by decide) (by decide) (by decide)
    constructor
    · simpa [entry, chars] using h.1
    · simpa [entry, chars] using h.2 (chars "b") (by decide)
  · have h := get_many_returns_exactly_server_keys.2.2 false true
      [chars "a", chars "b", chars "c"]
      [⟨chars "a", chars "0", chars "valA", chars "7"⟩,
       ⟨chars "c", chars "0", chars "valC", chars "9"⟩]
      (by decide) (by decide) (by decide)
    constructor
    · simpa [entry, chars] using h.1
    · simpa [entry, chars] using h.2 (chars "b") (by decide)

/-- **C10** — confirmed. When the requested key has no binding in the
dict produced by the fetch (no `VALUE` header for it in the server's
reply), single-key `get` returns `None` — not an error and not a mapping —
and single-key `gets` returns the pair `(None, None)`, exactly the
defaults of `.get(key, None)` and `.get(key, (None, None))`. -/
theorem get_missing_key_defaults
    (fuel : Nat) (ig : Bool) (st st1 st2 : ClientState) (conn1 conn2 : Conn)
    (k : List Char) (d1 d2 : FetchDict)
    (h1 : _fetch_cmd fuel ig st conn1 (chars "get") (.bytes k) false =
      some (st1, .ok d1))
    (hm1 : dictFind d1 k = none)
    (h2 : _fetch_cmd fuel ig st conn2 (chars "gets") (.bytes k) true =
      some (st2, .ok d2))
    (hm2 : dictFind d2 k = none) :
    get fuel ig st conn1 k = some (st1, .ok none) ∧
    gets fuel ig st conn2 k = some (st2, .ok (none, none)) := by
  constructor
  · simp [get, h1, hm1]
  · simp [gets, h2, hm2]

/-- Witness for C10: a server reply of just `END` leaves the key unbound,
so `get` returns `None` and `gets` returns `(None, None)`. -/
theorem get_missing_key_defaults_witness :
    get 1 false ⟨true, []⟩ ⟨true, true, [chars "END\r\n"]⟩ (chars "b") =
      some ((⟨true, []⟩ : ClientState), .ok none) ∧
    gets 1 false ⟨true, []⟩ ⟨true, true, [chars "END\r\n"]⟩ (chars "b") =
      some ((⟨true, []⟩ : ClientState), .ok (none, none)) := by
  have hf1 : _fetch_cmd 1 false ⟨true, []⟩ ⟨true, true, [chars "END\r\n"]⟩
      (chars "get") (.bytes (chars "b")) false =
      some ((⟨true, []⟩ : ClientState), .ok []) := by
    simp [_fetch_cmd, fetchLoop, _readline, readlineLoop, splitCRLF,
      _raise_errors, startswith, chars]
  have hf2 : _fetch_cmd 1 false ⟨true, []⟩ ⟨true, true, [chars "END\r\n"]⟩
      (chars "gets") (.bytes (chars "b")) true =
      some ((⟨true, []⟩ : ClientState), .ok []) := by
    simp [_fetch_cmd, fetchLoop, _readline, readlineLoop, splitCRLF,
      _raise_errors, startswith, chars]
  exact get_missing_key_defaults 1 false ⟨true, []⟩ ⟨true, []⟩ ⟨true, []⟩
    ⟨true, true, [chars "END\r\n"]⟩ ⟨true, true, [chars "END\r\n"]⟩
    (chars "b") [] [] hf1 rfl hf2 rfl

end PMC
